import Mathlib

/-!
Verification development for the ChessGame PGN library.

The definitions below are a shallow embedding of the C++ sources:
  src/src/san.cpp, src/src/tree.cpp, src/src/game.cpp, src/src/metadata.cpp,
  src/src/pgn.cpp and src/include/chessgame/cursor.h.
Machine strings are embedded as Lean String / List Char, C++ std::optional as
Option, std::expected as Except, std::vector as List.  Types of the external
rules engine (chesscore) that the library only consumes are modelled minimally,
each with a doc comment saying so.
-/

namespace ChessGame

/-- Modelled from the spec: chesscore::Color, the color of a piece or player
(spec section 6.1).  Its first enumerator is White; value-initialisation of a
chesscore enum yields the first enumerator. -/
inductive Color
  | White
  | Black
deriving DecidableEq, Repr

/-- Modelled from the spec: chesscore::other_color, the opponent of a color. -/
def other_color : Color → Color
  | .White => .Black
  | .Black => .White

/-- Modelled from the spec: chesscore::PieceType (spec section 6.1). -/
inductive PieceType
  | Pawn
  | Knight
  | Bishop
  | Rook
  | Queen
  | King
deriving DecidableEq, Repr

/-- Modelled from the spec: chesscore::Piece carries a PieceType and a Color
(spec section 6.1). -/
structure Piece where
  type : PieceType
  color : Color
deriving DecidableEq, Repr

/-- Modelled from the spec: chesscore::File, a board file named by a character
between a and h (spec section 6.1). -/
structure File where
  c : Char
deriving DecidableEq, Repr

/-- Modelled from the spec: chesscore::Rank, a board rank numbered 1 to 8
(spec section 6.1). -/
structure Rank where
  r : Nat
deriving DecidableEq, Repr

/-- Modelled from the spec: chesscore::Square, a file-rank pair
(spec section 6.1). -/
structure Square where
  file : File
  rank : Rank
deriving DecidableEq, Repr

/-- chesscore::Square::C1, the white queenside castling target. -/
def Square.C1 : Square := ⟨⟨'c'⟩, ⟨1⟩⟩

/-- chesscore::Square::C8, the black queenside castling target. -/
def Square.C8 : Square := ⟨⟨'c'⟩, ⟨8⟩⟩

/-- chesscore::Square::G1, the white kingside castling target. -/
def Square.G1 : Square := ⟨⟨'g'⟩, ⟨1⟩⟩

/-- chesscore::Square::G8, the black kingside castling target. -/
def Square.G8 : Square := ⟨⟨'g'⟩, ⟨8⟩⟩

/-- Modelled from the spec: chesscore::Move with fields from, to, piece,
captured, promoted, capturing_en_passant and a method is_castling
(spec section 6.1).  The C++ field named from is called from_sq here because
from is reserved in Lean; is_castling is modelled as a stored flag named
castling. -/
structure Move where
  from_sq : Square
  to_sq : Square
  piece : Piece
  captured : Option Piece
  promoted : Option Piece
  capturing_en_passant : Bool
  castling : Bool
deriving DecidableEq, Repr

/-- Modelled from the spec: the root node's move is default constructed
("undefined/zero for the root", spec section 3); zero initialisation of a
chesscore::Move yields the first enumerators (Pawn, White) for the piece and
zeroed squares.  Only the piece color of this value is ever read by the
library (BaseCursor::side_to_move). -/
def default_move : Move :=
  { from_sq := ⟨⟨'a'⟩, ⟨0⟩⟩
    to_sq := ⟨⟨'a'⟩, ⟨0⟩⟩
    piece := ⟨.Pawn, .White⟩
    captured := none
    promoted := none
    capturing_en_passant := false
    castling := false }

instance : Inhabited Move := ⟨default_move⟩

/-- chessgame::CheckState (san.h). -/
inductive CheckState
  | None
  | Check
  | Checkmate
deriving DecidableEq, Repr

/-- The suffix-annotation kinds of san.h, chessgame SuffixAnnotation. -/
inductive SuffixAnnotation
  | GoodMove
  | PoorMove
  | VeryGoodMove
  | VeryPoorMove
  | SpeculativeMove
  | QuestionableMove
deriving DecidableEq, Repr

/-- chessgame::SANParserErrorType (san.h / san.cpp to_string). -/
inductive SANParserErrorType
  | UnexpectedToken
  | UnexpectedCharsAtEnd
  | InvalidSuffixAnnotation
  | CheckAndCheckmate
  | MissingPieceType
  | MissingRank
  | MissingFile
deriving DecidableEq, Repr

/-- chessgame::SANParserError: an error type together with the offending SAN
string. -/
structure SANParserError where
  error_type : SANParserErrorType
  san : String
deriving DecidableEq, Repr

/-- Modelled from the spec: the SANMove structure used by src/src/san.cpp.
The newer san.h declaring it is not under src (the san.h present is an older
revision); fields and their default member initialisers are exactly those
read and written by san.cpp, matching the spec's SanMove (spec section 3)
plus the three scratch fields possible_disambiguation, target_file and
target_rank visible in san.cpp. -/
structure SANMove where
  san_string : String := ""
  moving_piece : Piece := ⟨.Pawn, .White⟩
  target_square : Square := ⟨⟨'a'⟩, ⟨0⟩⟩
  capturing : Bool := false
  promotion : Option Piece := none
  check_state : CheckState := .None
  disambiguation_file : Option File := none
  disambiguation_rank : Option Rank := none
  suffix_annotation : Option SuffixAnnotation := none
  possible_disambiguation : Bool := false
  target_file : File := ⟨'a'⟩
  target_rank : Rank := ⟨0⟩
deriving DecidableEq, Repr

/-- san.cpp TokenType (anonymous namespace). -/
inductive SANTokenType
  | PieceType
  | File
  | Rank
  | Capturing
  | Check
  | Checkmate
  | Promotion
  | SuffixAnnotation
  | Invalid
deriving DecidableEq, Repr

/-- san.cpp SANToken: a token type and the consumed characters. -/
structure SANToken where
  type : SANTokenType
  value : List Char
deriving DecidableEq, Repr

/-- The characters that name a piece type in SAN (san.cpp get_token cases). -/
def piece_chars : List Char := ['P', 'R', 'N', 'B', 'Q', 'K']

/-- The characters that name a file in SAN (san.cpp get_token cases). -/
def file_chars : List Char := ['a', 'b', 'c', 'd', 'e', 'f', 'g', 'h']

/-- The characters that name a rank in SAN (san.cpp get_token cases). -/
def rank_chars : List Char := ['1', '2', '3', '4', '5', '6', '7', '8']

/-- san.cpp get_token: classify the first character of the remaining SAN
string.  For a suffix-annotation start the source takes two characters
whenever a second one exists (both branches of the inner conditional return
substr(0, 2)). -/
def get_token : List Char → SANToken
  | [] => ⟨.Invalid, []⟩
  | c :: rest =>
    if c ∈ piece_chars then ⟨.PieceType, [c]⟩
    else if c ∈ file_chars then ⟨.File, [c]⟩
    else if c ∈ rank_chars then ⟨.Rank, [c]⟩
    else if c = 'x' then ⟨.Capturing, []⟩
    else if c = '+' then ⟨.Check, []⟩
    else if c = '#' then ⟨.Checkmate, []⟩
    else if c = '=' then ⟨.Promotion, []⟩
    else if c = '!' ∨ c = '?' then
      match rest with
      | [] => ⟨ SANTokenType.SuffixAnnotation, [c]⟩
      | c2 :: _ => ⟨ SANTokenType.SuffixAnnotation, [c, c2]⟩
    else ⟨.Invalid, []⟩

/-- Modelled from the spec: chesscore::piece_type_from_char, mapping a SAN
piece letter to its piece type (spec sections 4.4 and 6.1). -/
def piece_type_from_char : Char → PieceType
  | 'R' => .Rook
  | 'N' => .Knight
  | 'B' => .Bishop
  | 'Q' => .Queen
  | 'K' => .King
  | _ => .Pawn

/-- san.cpp extract_rank: the rank named by a digit character. -/
def extract_rank (c : Char) : Rank := ⟨c.toNat - '0'.toNat⟩

/-- san.cpp get_suffix_annotation: decode a suffix-annotation token value. -/
def get_suffix_annotation (value : List Char) : Except SANParserError SuffixAnnotation :=
  if value = ['!'] then .ok .GoodMove
  else if value = ['!', '!'] then .ok .VeryGoodMove
  else if value = ['?'] then .ok .PoorMove
  else if value = ['?', '?'] then .ok .VeryPoorMove
  else if value = ['!', '?'] then .ok .SpeculativeMove
  else if value = ['?', '!'] then .ok .QuestionableMove
  else .error ⟨ SANParserErrorType.InvalidSuffixAnnotation, String.mk value⟩

/-- san.cpp parse_suffixes, first block (lines 116-120): an optional check
indicator. -/
def parse_check_suffix (mv : SANMove) (s : List Char) : SANMove × List Char :=
  if (get_token s).type = .Check then ({ mv with check_state := .Check }, s.drop 1)
  else (mv, s)

/-- san.cpp parse_suffixes, second block (lines 121-128): an optional
checkmate indicator, rejected when a check state is already recorded. -/
def parse_mate_suffix (san : String) (mv : SANMove) (s : List Char) :
    Except SANParserError (SANMove × List Char) :=
  if (get_token s).type = .Checkmate then
    if mv.check_state ≠ .None then .error ⟨.CheckAndCheckmate, san⟩
    else .ok ({ mv with check_state := .Checkmate }, s.drop 1)
  else .ok (mv, s)

/-- san.cpp parse_suffixes, third block (lines 129-136): a further check
indicator, rejected when a check state is already recorded. -/
def parse_second_check_suffix (san : String) (mv : SANMove) (s : List Char) :
    Except SANParserError (SANMove × List Char) :=
  if (get_token s).type = .Check then
    if mv.check_state ≠ .None then .error ⟨.CheckAndCheckmate, san⟩
    else .ok ({ mv with check_state := .Check }, s.drop 1)
  else .ok (mv, s)

/-- san.cpp parse_suffixes, fourth block (lines 137-144): an optional suffix
annotation. -/
def parse_annotation_suffix (mv : SANMove) (s : List Char) :
    Except SANParserError (SANMove × List Char) :=
  if (get_token s).type = SANTokenType.SuffixAnnotation then
    match get_suffix_annotation (get_token s).value with
    | .error e => .error e
    | .ok ann =>
      .ok ({ mv with suffix_annotation := some ann }, s.drop (get_token s).value.length)
  else .ok (mv, s)

/-- san.cpp parse_suffixes: the four blocks in sequence.  The C++ function
mutates the move, the remaining string view and the current token; here the
pair of move and remaining characters is threaded, the current token always
being get_token of the remaining characters (which the source re-establishes
after every consumption). -/
def parse_suffixes (san : String) (mv : SANMove) (s : List Char) :
    Except SANParserError (SANMove × List Char) :=
  let p1 := parse_check_suffix mv s
  match parse_mate_suffix san p1.1 p1.2 with
  | .error e => .error e
  | .ok (mv2, s2) =>
    match parse_second_check_suffix san mv2 s2 with
    | .error e => .error e
    | .ok (mv3, s3) => parse_annotation_suffix mv3 s3

/-- san.cpp parse_promotions: optional = followed by a mandatory piece
letter. -/
def parse_promotions (san : String) (side : Color) (mv : SANMove) (s : List Char) :
    Except SANParserError (SANMove × List Char) :=
  if (get_token s).type = .Promotion then
    let s1 := s.drop 1
    let t1 := get_token s1
    if t1.type ≠ .PieceType then .error ⟨.MissingPieceType, san⟩
    else
      .ok ({ mv with promotion := some ⟨piece_type_from_char (t1.value.headD 'P'), side⟩ },
           s1.drop 1)
  else .ok (mv, s)

/-- san.cpp parse_piece_type: optional piece letter, default pawn. -/
def parse_piece_type (side : Color) (mv : SANMove) (s : List Char) :
    SANMove × List Char :=
  let t := get_token s
  if t.type = .PieceType then
    ({ mv with moving_piece := ⟨piece_type_from_char (t.value.headD 'P'), side⟩ }, s.drop 1)
  else
    ({ mv with moving_piece := ⟨.Pawn, side⟩ }, s)

/-- san.cpp parse_disambiguation_chars: a lone file character is a file
disambiguation; a file followed by a rank is tentatively a target square
(possible_disambiguation); a lone rank character is a rank disambiguation. -/
def parse_disambiguation_chars (mv : SANMove) (s : List Char) :
    SANMove × List Char :=
  let t := get_token s
  if t.type = .File then
    let next := get_token (s.drop 1)
    if next.type ≠ .Rank then
      ({ mv with disambiguation_file := some ⟨t.value.headD 'a'⟩ }, s.drop 1)
    else
      ({ mv with
          target_file := ⟨t.value.headD 'a'⟩
          target_rank := extract_rank (next.value.headD '0')
          possible_disambiguation := true }, s.drop 2)
  else if t.type = .Rank then
    ({ mv with disambiguation_rank := some (extract_rank (t.value.headD '0')) }, s.drop 1)
  else (mv, s)

/-- san.cpp parse_capture: optional x; a tentative file-rank pair parsed
before the x is reinterpreted as disambiguation. -/
def parse_capture (mv : SANMove) (s : List Char) : SANMove × List Char :=
  if (get_token s).type = .Capturing then
    let mv1 := { mv with capturing := true }
    if mv1.possible_disambiguation then
      ({ mv1 with
          disambiguation_file := some mv1.target_file
          disambiguation_rank := some mv1.target_rank
          possible_disambiguation := false }, s.drop 1)
    else (mv1, s.drop 1)
  else (mv, s)

/-- san.cpp parse_target_square: mandatory target square, or the tentative
file-rank pair becomes the target. -/
def parse_target_square (san : String) (mv : SANMove) (s : List Char) :
    Except SANParserError (SANMove × List Char) :=
  let t := get_token s
  if t.type = .File then
    let rank_token := get_token (s.drop 1)
    if rank_token.type = .Rank then
      let mv1 :=
        if mv.possible_disambiguation then
          { mv with
              disambiguation_file := some mv.target_file
              disambiguation_rank := some mv.target_rank
              possible_disambiguation := false }
        else mv
      .ok ({ mv1 with
              target_square := ⟨⟨t.value.headD 'a'⟩, extract_rank (rank_token.value.headD '0')⟩ },
           s.drop 2)
    else .error ⟨.MissingRank, san⟩
  else
    if mv.possible_disambiguation then
      .ok ({ mv with
              target_square := ⟨mv.target_file, mv.target_rank⟩
              possible_disambiguation := false }, s)
    else .error ⟨.MissingFile, san⟩

/-- san.cpp long_castling prefix test: does the string start with O-O-O
(std::string::starts_with). -/
def starts_long_castling (l : List Char) : Bool :=
  decide (l.take 5 = ['O', '-', 'O', '-', 'O'])

/-- san.cpp short_castling prefix test: does the string start with O-O
(std::string::starts_with). -/
def starts_short_castling (l : List Char) : Bool :=
  decide (l.take 3 = ['O', '-', 'O'])

/-- san.cpp parse_castling_move: choose the castling target by prefix and
color, strip the prefix, parse the suffix tail, set the target square.  Note
that the source never checks that the remaining characters were fully
consumed. -/
def parse_castling_move (san : String) (side : Color) (mv : SANMove) (s : List Char) :
    Except SANParserError SANMove :=
  let mv0 := { mv with moving_piece := ⟨.King, side⟩ }
  let target_square : Square :=
    if starts_long_castling s then
      if side = .White then Square.C1 else Square.C8
    else
      if side = .White then Square.G1 else Square.G8
  let s1 := if starts_long_castling s then s.drop 5 else s.drop 3
  match parse_suffixes san mv0 s1 with
  | .error e => .error e
  | .ok (mv1, _) => .ok { mv1 with target_square := target_square }

/-- san.cpp parse_san: castling short-circuit, then piece type,
disambiguation, capture, target square, promotion, suffixes, and a final
check that the input was fully consumed (non-castling path only). -/
def parse_san (san : String) (side : Color) : Except SANParserError SANMove :=
  let mv0 : SANMove := { san_string := san }
  let s0 := san.toList
  if starts_short_castling s0 then
    parse_castling_move san side mv0 s0
  else
    if (get_token s0).type = .Invalid then .error ⟨.UnexpectedToken, san⟩
    else
      let p1 := parse_piece_type side mv0 s0
      let p2 := parse_disambiguation_chars p1.1 p1.2
      let p3 := parse_capture p2.1 p2.2
      match parse_target_square san p3.1 p3.2 with
      | .error e => .error e
      | .ok (mv4, s4) =>
        match parse_promotions san side mv4 s4 with
        | .error e => .error e
        | .ok (mv5, s5) =>
          match parse_suffixes san mv5 s5 with
          | .error e => .error e
          | .ok (mv6, s6) =>
            if s6 ≠ [] then .error ⟨.UnexpectedCharsAtEnd, san⟩
            else .ok mv6

/-- san.cpp san_move_matches_any_piece_type: same target square, compatible
disambiguation, same capture flag, same promotion; the piece is ignored. -/
def san_move_matches_any_piece_type (san_move : SANMove) (move : Move) : Bool :=
  if san_move.target_square ≠ move.to_sq then false
  else if (san_move.disambiguation_file ≠ none ∧
            san_move.disambiguation_file ≠ some move.from_sq.file) ∨
          (san_move.disambiguation_rank ≠ none ∧
            san_move.disambiguation_rank ≠ some move.from_sq.rank) then false
  else if (san_move.capturing = true ∧ move.captured = none) ∨
          (san_move.capturing = false ∧ move.captured ≠ none) then false
  else if move.promoted ≠ san_move.promotion then false
  else true

/-- san.cpp san_move_matches: additionally the moving piece must agree. -/
def san_move_matches (san_move : SANMove) (move : Move) : Bool :=
  if san_move.moving_piece ≠ move.piece then false
  else san_move_matches_any_piece_type san_move move

/-- san.cpp match_san_move: all legal moves matched by the SAN move. -/
def match_san_move (san_move : SANMove) (moves : List Move) : List Move :=
  moves.filter (fun move => san_move_matches san_move move)

/-- san.cpp match_san_move_wildcard_piece_type: matching while ignoring the
piece type. -/
def match_san_move_wildcard_piece_type (san_move : SANMove) (moves : List Move) : List Move :=
  moves.filter (fun move => san_move_matches_any_piece_type san_move move)

/-- Modelled from the spec: match_move, the piece-constrained matcher called
by PGNParser::find_legal_move (pgn.cpp lines 446 and 464).  Its declaration
lives in a san.h revision that is not under src; per spec section 4.5 the
match filters the legal moves by the matches predicate, which is
match_san_move. -/
def match_move (san_move : SANMove) (moves : List Move) : List Move :=
  match_san_move san_move moves

/-- san.cpp find_piece_moves_to_target: the legal moves with the given piece
and target square. -/
def find_piece_moves_to_target (piece : Piece) (target : Square) (moves : List Move) :
    List Move :=
  moves.filter (fun move => decide (move.piece = piece ∧ move.to_sq = target))

/-- Modelled from the spec: chesscore::move_list_contains with
FullMoveCompare, which holds when the list has a move equal to the given one
on all fields (spec section 4.5: generate_san returns None if the move is not
in the legal list). -/
def move_list_contains (moves : List Move) (move : Move) : Bool :=
  decide (move ∈ moves)

/-- san.cpp determine_disambiguation: collect the origin files and ranks of
the candidate moves into sets; all-different files give a file
disambiguation, otherwise all-different ranks give a rank disambiguation,
otherwise both coordinates are emitted.  The std::set sizes are the
deduplicated list lengths. -/
def determine_disambiguation (move : Move) (moves : List Move) :
    Option File × Option Rank :=
  let files := (moves.map (fun other_move => other_move.from_sq.file)).dedup
  let ranks := (moves.map (fun other_move => other_move.from_sq.rank)).dedup
  if files.length = moves.length then (some move.from_sq.file, none)
  else if ranks.length = moves.length then (none, some move.from_sq.rank)
  else (some move.from_sq.file, some move.from_sq.rank)

/-- Modelled from the spec: chesscore::Piece::piece_char_colorless, the
uppercase piece letter (spec section 6.1). -/
def piece_char_colorless : PieceType → Char
  | .Pawn => 'P'
  | .Knight => 'N'
  | .Bishop => 'B'
  | .Rook => 'R'
  | .Queen => 'Q'
  | .King => 'K'

/-- Modelled from the spec: the digit character of a rank (std::to_string of
the rank number for single digits). -/
def rank_char (r : Rank) : Char := Char.ofNat ('0'.toNat + r.r)

/-- Modelled from the spec: chesscore to_string of a square, the file letter
followed by the rank digit (spec section 4.5 step 5). -/
def square_chars (sq : Square) : List Char := [sq.file.c, rank_char sq.rank]

/-- san.cpp generate_san_move: None when the move is not in the legal list;
castling short-circuit; otherwise the piece letter or pawn capture file,
disambiguation when several moves share piece and target, the capture x,
the target square and the promotion suffix. -/
def generate_san_move (move : Move) (moves : List Move) : Option SANMove :=
  if ¬ move_list_contains moves move then none
  else if move.castling then
    some { san_string := if move.to_sq.file = ⟨'c'⟩ then "O-O-O" else "O-O"
           moving_piece := move.piece
           target_square := move.to_sq }
  else
    let matching_moves := find_piece_moves_to_target move.piece move.to_sq moves
    if matching_moves.isEmpty then none
    else
      let disambiguation : Option File × Option Rank :=
        if move.piece.type ≠ .Pawn ∧ matching_moves.length > 1 then
          determine_disambiguation move matching_moves
        else (none, none)
      let san_chars : List Char :=
        (if move.piece.type ≠ .Pawn then [piece_char_colorless move.piece.type] else []) ++
        (if move.piece.type = .Pawn then
          (if move.captured.isSome then [move.from_sq.file.c] else [])
         else
          (disambiguation.1.elim [] (fun f => [f.c])) ++
          (disambiguation.2.elim [] (fun r => [rank_char r]))) ++
        (if move.captured.isSome then ['x'] else []) ++
        square_chars move.to_sq ++
        (match move.promoted with
         | some p => ['=', piece_char_colorless p.type]
         | none => [])
      some { san_string := String.mk san_chars
             moving_piece := move.piece
             target_square := move.to_sq
             capturing := move.captured.isSome
             promotion := move.promoted
             disambiguation_file := disambiguation.1
             disambiguation_rank := disambiguation.2 }

/-- pgn.cpp PGNErrorType (pgn.h). -/
inductive PGNErrorType
  | InputError
  | UnexpectedChar
  | UnexpectedToken
  | InvalidMove
  | IllegalMove
  | AmbiguousMove
  | InvalidGameResult
  | CannotStartRav
  | NoPenRav
  | EndOfInput
deriving DecidableEq, Repr

/-- pgn.cpp PGNWarningType (pgn.h). -/
inductive PGNWarningType
  | UnexpectedChar
  | MoveMissingCapture
  | MoveMissingPieceType
deriving DecidableEq, Repr

/-- pgn.cpp PGNParser::find_legal_move (lines 441-472): resolve a SAN move
against the legal moves, with the two forgiving recovery paths.  The result
carries the list of warnings appended to m_warnings by the call (their line
number and description are not modelled). -/
def find_legal_move (san_move : SANMove) (legal_moves : List Move) :
    Except PGNErrorType (Move × List PGNWarningType) :=
  if legal_moves.isEmpty then .error .IllegalMove
  else
    let matched_moves := match_move san_move legal_moves
    if matched_moves.length = 1 then .ok (matched_moves.headD default_move, [])
    else if matched_moves.length > 1 then .error .AmbiguousMove
    else
      let matched_without_piece_type := match_san_move_wildcard_piece_type san_move legal_moves
      if matched_without_piece_type.length = 1 then
        .ok (matched_without_piece_type.headD default_move, [.MoveMissingPieceType])
      else if san_move.capturing = false then
        let try_move := { san_move with capturing := true }
        let matched_captures := match_move try_move legal_moves
        if matched_captures.length = 1 then
          .ok (matched_captures.headD default_move, [.MoveMissingCapture])
        else .error .IllegalMove
      else .error .IllegalMove

/-- The GameNode slice read and written by GameNode::append_child and
Game::add_node (tree.h): the node id and the move; comments, NAGs and the
cached position are untouched by those operations and not needed by the
claims about them.  The id field holds the numeric value of the uint32_t
NodeId, always below 2^32 when produced by add_node. -/
structure GNode where
  id : Nat
  move : Move
deriving DecidableEq, Repr

/-- tree.cpp GameNode::append_child: scan the children in order for the
first whose move equals the candidate's move (std::ranges::find_if); when
none exists push the candidate to the back and return it, otherwise return
the child found, leaving the children unchanged.  The C++ works on
shared_ptr; here the parent's children list is passed and returned
explicitly. -/
def append_child (children : List GNode) (child : GNode) : List GNode × GNode :=
  match children.find? (fun n => decide (n.move = child.move)) with
  | none => (children ++ [child], child)
  | some n => (children, n)

/-- The modulus of a 32-bit unsigned integer, 2^32: NodeId (tree.h) stores
a uint32_t value, so its increments wrap modulo this. -/
def u32_size : Nat := 4294967296

/-- The Game slice driving add_node for one fixed parent (game.h):
m_next_id together with that parent's children.  next_id holds the numeric
value of the uint32_t m_next_id; add_node keeps it below u32_size by
wrapping each increment. -/
structure GameState where
  next_id : Nat
  children : List GNode
deriving DecidableEq, Repr

/-- game.cpp Game::Game(): the root starts with no children and
m_next_id is 2. -/
def game_new : GameState := ⟨2, []⟩

/-- game.cpp Game::add_node: make a candidate node carrying the next id
(post-incrementing m_next_id), append-or-deduplicate it into the parent's
children, and increment m_next_id once more when the candidate was dropped
in favour of an existing child.  NodeId::operator++ increments a uint32_t
(tree.h value++), so each increment wraps modulo 2^32, written here as an
explicit remainder.  The C++ pointer comparison added_child != child is
modelled structurally; on states whose child ids all lie below next_id this
coincides with pointer identity because the candidate carries the fresh
id. -/
def add_node (s : GameState) (move : Move) : GameState × GNode :=
  let child : GNode := ⟨s.next_id, move⟩
  let next1 := (s.next_id + 1) % u32_size
  let res := append_child s.children child
  if res.2 ≠ child then ({ next_id := (next1 + 1) % u32_size, children := res.1 }, res.2)
  else ({ next_id := next1, children := res.1 }, res.2)

/-- metadata.h metadata_tag: a tag name together with its value. -/
structure metadata_tag where
  name : String
  value : String
deriving DecidableEq, Repr

/-- metadata.cpp GameMetadata::get: the value of the first tag with the
given name.  The metadata is the ordered tag list, duplicates permitted. -/
def metadata_get (metadata : List metadata_tag) (name : String) : Option String :=
  (metadata.find? (fun tag => decide (tag.name = name))).map (fun tag => tag.value)

/-- metadata.cpp GameMetadata::str_tags, the Seven Tag Roster in order. -/
def str_tags : List String := ["Event", "Site", "Date", "Round", "White", "Black", "Result"]

/-- metadata.cpp GameMetadata::is_str_tag. -/
def is_str_tag (name : String) : Bool := decide (name ∈ str_tags)

/-- The placeholder value written for a missing tag (pgn.cpp
write_str_tags / write_game_termination). -/
def missing_tag_value : String := "?"

/-- pgn.cpp PGNWriter::write_str_tags: for each STR name in roster order,
one tag pair whose value is the first stored value, or the placeholder. -/
def write_str_tags (metadata : List metadata_tag) : List metadata_tag :=
  str_tags.map (fun name => ⟨name, (metadata_get metadata name).getD missing_tag_value⟩)

/-- Insertion of a tag into a name-sorted tag list. -/
def insert_by_name (t : metadata_tag) : List metadata_tag → List metadata_tag
  | [] => [t]
  | u :: us => if t.name ≤ u.name then t :: u :: us else u :: insert_by_name t us

/-- Sorting tags by name.  pgn.cpp write_non_str_tags uses the unstable
std::ranges::sort with the name-comparison lambda, which pins down only the
name order; an insertion sort by name realises it. -/
def sort_by_name : List metadata_tag → List metadata_tag
  | [] => []
  | t :: ts => insert_by_name t (sort_by_name ts)

/-- pgn.cpp PGNWriter::write_non_str_tags: copy the tags that are not STR
tags and write them sorted by name. -/
def write_non_str_tags (metadata : List metadata_tag) : List metadata_tag :=
  sort_by_name (metadata.filter (fun tag => ! is_str_tag tag.name))

/-- pgn.cpp PGNWriter::write_metadata: the sequence of tag pairs written to
the tag section, STR tags first, then the remaining tags; the bracket
formatting and the closing blank line carry no information and are not
modelled. -/
def write_metadata_tags (metadata : List metadata_tag) : List metadata_tag :=
  write_str_tags metadata ++ write_non_str_tags metadata

/-- pgn.cpp PGNLexer::is_whitespace. -/
def is_whitespace (c : Char) : Bool :=
  decide (c = ' ' ∨ c = '\t' ∨ c = '\n' ∨ c = '\r')

/-- pgn.cpp PGNLexer::read_comment: consume input until the closing brace,
incrementing the line counter at each newline and replacing each whitespace
character by a space.  The result is the comment token value, the number of
line-counter increments, and the remaining input.  (On end of input without
a closing brace the C++ stream reports eof, not bad, and the source keeps
looping; terminated comments, the subject of the specification, never reach
that case, modelled here as stopping.) -/
def read_comment : List Char → List Char × Nat × List Char
  | [] => ([], 0, [])
  | c :: rest =>
    if c = '}' then ([], 0, rest)
    else
      let nl := if c = '\n' then 1 else 0
      let c1 := if is_whitespace c then ' ' else c
      let r := read_comment rest
      (c1 :: r.1, nl + r.2.1, r.2.2)

/-- pgn.cpp PGNLexer::TokenType (pgn.h). -/
inductive PGNTokenType
  | OpenBracket
  | CloseBracket
  | Symbol
  | String
  | Number
  | NAG
  | Dot
  | OpenParen
  | CloseParen
  | Comment
  | GameResult
  | EndOfInput
  | Invalid
deriving DecidableEq, Repr

/-- pgn.h PGNLexer::Token: type and value (the line number is not needed by
the claims). -/
structure PGNToken where
  type : PGNTokenType
  value : String
deriving DecidableEq, Repr

/-- The PGNParser fields the comment-attachment claim concerns (pgn.h):
m_metadata, m_warnings (kinds only) and m_overall_game_comment. -/
structure ParserState where
  metadata : List metadata_tag
  warnings : List PGNWarningType
  overall_game_comment : String
deriving DecidableEq, Repr

/-- pgn.cpp PGNParser::reset: a fresh GameMetadata and cleared warnings;
m_overall_game_comment is not touched. -/
def PGNParser_reset (st : ParserState) : ParserState :=
  { st with metadata := [], warnings := [] }

/-- pgn.cpp PGNParser::read_metadata: consume [ Symbol String ] groups,
appending each to the metadata (GameMetadata::add), then an optional
Comment token stored as the overall game comment. -/
def read_metadata (st : ParserState) :
    List PGNToken → Except PGNErrorType (ParserState × List PGNToken)
  | ⟨.OpenBracket, _⟩ :: ⟨.Symbol, name⟩ :: ⟨.String, value⟩ :: ⟨.CloseBracket, _⟩ :: rest =>
    read_metadata { st with metadata := st.metadata ++ [⟨name, value⟩] } rest
  | ⟨.OpenBracket, _⟩ :: _ => .error .UnexpectedToken
  | ⟨.Comment, c⟩ :: rest => .ok ({ st with overall_game_comment := c }, rest)
  | toks => .ok (st, toks)

/-- pgn.cpp PGNParser::setup_game: the comment the new game's root node
carries: the stored overall game comment when it is nonempty (set_comment on
the root), else the root's default empty comment. -/
def setup_game_root_comment (st : ParserState) : String :=
  if st.overall_game_comment ≠ "" then st.overall_game_comment else ""

/-- The metadata/comment prefix of pgn.cpp PGNParser::read_game (lines
292-309): reset, end-of-input test, OpenBracket check, read_metadata, then
setup_game.  Returns none at end of input, otherwise the root comment of the
game constructed by setup_game, the parser state after the header, and the
remaining tokens.  The movetext that follows never writes m_metadata or
m_overall_game_comment, and the chess960 Variant skip merely re-enters this
header logic; both lie outside this slice. -/
def read_game_header (st : ParserState) (toks : List PGNToken) :
    Except PGNErrorType (Option (String × ParserState × List PGNToken)) :=
  let st0 := PGNParser_reset st
  match toks with
  | [] => .ok none
  | t :: _ =>
    if t.type = .EndOfInput then .ok none
    else if t.type ≠ .OpenBracket then .error .UnexpectedToken
    else
      match read_metadata st0 toks with
      | .error e => .error e
      | .ok (st1, rest) => .ok (some (setup_game_root_comment st1, st1, rest))

/-- Modelled from the spec: chesscore::Position, of which the library reads
only side_to_move for the claims at hand (spec section 6.1). -/
structure Position where
  side_to_move : Color
deriving DecidableEq, Repr

/-- Modelled from the spec: the standard starting position has White to
move. -/
def Position.standard_starting : Position := ⟨.White⟩

/-- The characters after the first space of a list, used to reach the FEN
side-to-move field. -/
def after_first_space : List Char → List Char
  | [] => []
  | c :: rest => if c = ' ' then rest else after_first_space rest

/-- Modelled from the spec: chesscore FEN parsing, of which only the
side-to-move field (the second space-separated field, the single letter w or
b) is represented (spec sections 3 and 6.1). -/
def Position.from_fen (fen : String) : Position :=
  match after_first_space fen.toList with
  | c :: _ => if c = 'b' then ⟨.Black⟩ else ⟨.White⟩
  | [] => ⟨.White⟩

/-- The FEN tag name recognised by Game::Game (game.cpp). -/
def fen_tag_name : String := "FEN"

/-- game.cpp Game::Game(const GameMetadata &): the root position is read
from the FEN tag when one is present (find_if on the tag name), else it is
the standard starting position. -/
def root_position (metadata : List metadata_tag) : Position :=
  match metadata.find? (fun tag => decide (tag.name = fen_tag_name)) with
  | some tag => Position.from_fen tag.value
  | none => Position.standard_starting

/-- cursor.h BaseCursor::side_to_move: other_color(move().piece.color),
where move() is the node's stored move — for the root node the
default-constructed move. -/
def cursor_side_to_move (move : Move) : Color := other_color move.piece.color

/-- Id-soundness of a game state: every child id lies below the id
counter.  This holds for every state reached from game_new before the
32-bit counter wraps (the root gets id 1, the counter starts at 2), and it
fails once the counter wraps past 2^32; while it holds it makes the
structural model of the pointer comparison in add_node exact. -/
def id_sound (s : GameState) : Prop := ∀ n ∈ s.children, n.id < s.next_id

/-- The pawn double step e2-e4. -/
def mv_e2e4 : Move :=
  { from_sq := ⟨⟨'e'⟩, ⟨2⟩⟩
    to_sq := ⟨⟨'e'⟩, ⟨4⟩⟩
    piece := ⟨.Pawn, .White⟩
    captured := none
    promoted := none
    capturing_en_passant := false
    castling := false }

/-- The pawn double step d2-d4. -/
def mv_d2d4 : Move :=
  { from_sq := ⟨⟨'d'⟩, ⟨2⟩⟩
    to_sq := ⟨⟨'d'⟩, ⟨4⟩⟩
    piece := ⟨.Pawn, .White⟩
    captured := none
    promoted := none
    capturing_en_passant := false
    castling := false }

/-- A knight move b1-d2. -/
def mv_nb1d2 : Move :=
  { from_sq := ⟨⟨'b'⟩, ⟨1⟩⟩
    to_sq := ⟨⟨'d'⟩, ⟨2⟩⟩
    piece := ⟨.Knight, .White⟩
    captured := none
    promoted := none
    capturing_en_passant := false
    castling := false }

/-- A knight move f3-d2. -/
def mv_nf3d2 : Move :=
  { from_sq := ⟨⟨'f'⟩, ⟨3⟩⟩
    to_sq := ⟨⟨'d'⟩, ⟨2⟩⟩
    piece := ⟨.Knight, .White⟩
    captured := none
    promoted := none
    capturing_en_passant := false
    castling := false }

/-- A legal-move list with two knights able to reach d2, from distinct
files (b and f) and distinct ranks (1 and 3). -/
def legal_two_knights : List Move := [mv_nb1d2, mv_nf3d2]

/-- The SAN move parsed from the token e4 with White to move: a white pawn
to e4, no capture. -/
def san_e4 : SANMove :=
  { san_string := "e4"
    moving_piece := ⟨.Pawn, .White⟩
    target_square := ⟨⟨'e'⟩, ⟨4⟩⟩
    target_file := ⟨'e'⟩
    target_rank := ⟨4⟩ }

/-- A kingside castling string followed by stray characters. -/
def san_oo_garbage : String := "O-Oe4"

/-- The tail after the castling prefix of san_oo_garbage. -/
def tail_e4 : List Char := ['e', '4']

/-- A queen move with a doubled check indicator. -/
def san_doubled_check : String := "Qe3++"

/-- An empty SAN string for suffix-parser instantiations. -/
def empty_san : String := ""

/-- A brace-comment body holding a run of two spaces, then the closing
brace. -/
def comment_run_demo : List Char := ['a', ' ', ' ', 'b', '}']

/-- A comment body with a newline and a space, closing brace, then further
input. -/
def comment_nl_demo : List Char := ['x', '\n', ' ', 'y']

/-- The Event tag name. -/
def event_name : String := "Event"

/-- A first tag value. -/
def value_a : String := "A"

/-- A second tag value. -/
def value_b : String := "B"

/-- A metadata store with two tags of the same STR name Event. -/
def md_dup : List metadata_tag := [⟨event_name, value_a⟩, ⟨event_name, value_b⟩]

/-- A FEN string with Black to move. -/
def fen_black_demo : String := "8/8/8/8/8/8/8/8 b - - 0 1"

/-- The PGN token sequence of one metadata tag (pgn.cpp read_tag:
OpenBracket, Symbol, String, CloseBracket). -/
def tag_tokens (t : metadata_tag) : List PGNToken :=
  [⟨.OpenBracket, ""⟩, ⟨.Symbol, t.name⟩, ⟨.String, t.value⟩, ⟨.CloseBracket, ""⟩]

/-- The PGN token sequence of a whole tag section. -/
def tags_tokens (md : List metadata_tag) : List PGNToken :=
  (md.map tag_tokens).flatten

/-- Demo tags for the two-game comment-leak scenario. -/
def md_game1 : List metadata_tag := [⟨event_name, value_a⟩]

/-- Demo tags of the second game. -/
def md_game2 : List metadata_tag := [⟨event_name, value_b⟩]

/-- The overall game comment of the first demo game. -/
def overall_demo : String := "game one comment"

/-- A movetext token that is neither a tag opening nor a comment. -/
def number_token : PGNToken := ⟨.Number, "1"⟩

/-- A tag name outside the Seven Tag Roster. -/
def custom_name : String := "MyTag"

/-- C7 counterexample: the claim says a run of two spaces inside a brace
comment yields a single space in the Comment token value.  On the body
"a( )( )b}" PGNLexer::read_comment produces the value "a( )( )b" with both
spaces kept: the source replaces each whitespace character by one space and
never collapses runs. -/
theorem c7_counterexample :
    (read_comment comment_run_demo).1 = ['a', ' ', ' ', 'b'] ∧
    (read_comment comment_run_demo).1 ≠ ['a', ' ', 'b'] := by
  decide

/-- C7 amended: for a terminated brace comment, every whitespace character
of the body is replaced by one space (so a maximal run of k whitespace
characters yields k spaces, not one), and the line counter is incremented
once per newline of the body; the remaining input is what follows the
closing brace. -/
theorem c7_amended (pre rest : List Char) (h : '}' ∉ pre) :
    read_comment (pre ++ '}' :: rest) =
      (pre.map (fun c => if is_whitespace c then ' ' else c),
       pre.countP (fun c => decide (c = '\n')), rest) := by
  induction pre with
  | nil => simp [read_comment]
  | cons c cs ih =>
    have hc : c ≠ '}' := by
      intro e
      exact h (e ▸ List.mem_cons_self c cs)
    have h' : '}' ∉ cs := fun m => h (List.mem_cons_of_mem _ m)
    have ihe := ih h'
    simp only [List.cons_append, read_comment, if_neg hc, List.append_eq]
    rw [ihe]
    simp only [List.map_cons, List.countP_cons, Prod.mk.injEq]
    refine ⟨trivial, ?_, trivial⟩
    by_cases hnl : c = '\n'
    · simp [hnl, Nat.add_comm]
    · simp [hnl]

/-- C7 witness: the amended statement evaluated on a body holding a newline
followed by a space, with input remaining after the closing brace. -/
theorem c7_witness :
    ('}' ∉ comment_nl_demo) ∧
    read_comment (comment_nl_demo ++ '}' :: ['r']) = (['x', ' ', ' ', 'y'], 1, ['r']) :=
  ⟨by decide, (c7_amended comment_nl_demo ['r'] (by decide)).trans (by decide)⟩

/-- C5: BaseCursor::side_to_move is other_color(move().piece.color) with no
root special case; at the root the stored move is the default-constructed
move, so the result is a constant of the library that ignores the game's
root position.  A fresh standard game has White to move but the root cursor
reports Black; a game whose FEN tag gives Black the move keeps exposing the
same constant, so for every default piece color at least one of the two root
positions is reported wrongly.  This contradicts the claim (and the
function's own documentation, "the color of the player to move next"). -/
theorem c5_root_side_to_move_bug :
    cursor_side_to_move default_move = Color.Black ∧
    (root_position []).side_to_move = Color.White ∧
    (root_position [⟨fen_tag_name, fen_black_demo⟩]).side_to_move = Color.Black ∧
    cursor_side_to_move default_move ≠ (root_position []).side_to_move := by
  decide

/-- Helper: append_child on a children list with no move-equal child
appends the candidate and returns it. -/
theorem append_child_of_not_mem (children : List GNode) (child : GNode)
    (h : ∀ n ∈ children, n.move ≠ child.move) :
    append_child children child = (children ++ [child], child) := by
  have hfind : children.find? (fun n => decide (n.move = child.move)) = none := by
    rw [List.find?_eq_none]
    intro x hx
    simpa using h x hx
  simp [append_child, hfind]

/-- Helper: find? locates the first move-equal child. -/
theorem find?_first_move_eq (pre suf : List GNode) (n child : GNode)
    (hpre : ∀ x ∈ pre, x.move ≠ child.move) (hn : n.move = child.move) :
    (pre ++ n :: suf).find? (fun x => decide (x.move = child.move)) = some n := by
  induction pre with
  | nil => simp [List.find?_cons_of_pos, hn]
  | cons a as ih =>
    have ha : a.move ≠ child.move := hpre a (List.mem_cons_self a as)
    have has : ∀ x ∈ as, x.move ≠ child.move := fun x hx => hpre x (List.mem_cons_of_mem _ hx)
    simpa [List.find?_cons_of_neg, ha] using ih has

/-- Helper: append_child returns the first move-equal child and leaves the
children unchanged. -/
theorem append_child_of_first (pre suf : List GNode) (n child : GNode)
    (hpre : ∀ x ∈ pre, x.move ≠ child.move) (hn : n.move = child.move) :
    append_child (pre ++ n :: suf) child = (pre ++ n :: suf, n) := by
  simp [append_child, find?_first_move_eq pre suf n child hpre hn]

/-- Helper: add_node when a move-equal child exists returns that child and
leaves the children unchanged, whichever way the pointer comparison goes
(only the counter value depends on it). -/
theorem add_node_found (s : GameState) (m : Move) (n0 : GNode)
    (hfind : s.children.find? (fun x => decide (x.move = m)) = some n0) :
    (add_node s m).2 = n0 ∧ (add_node s m).1.children = s.children := by
  simp only [add_node, append_child, hfind]
  split <;> exact ⟨rfl, rfl⟩

/-- Helper: add_node when a move-equal child exists on an id-sound state:
the candidate is dropped, the children stay, the wrapping counter advances
twice, the existing child is returned. -/
theorem add_node_dedup (s : GameState) (m : Move) (n0 : GNode) (hs : id_sound s)
    (hfind : s.children.find? (fun x => decide (x.move = m)) = some n0) :
    add_node s m =
      ({ next_id := ((s.next_id + 1) % u32_size + 1) % u32_size,
         children := s.children }, n0) := by
  have hn0 : n0 ∈ s.children := List.mem_of_find?_eq_some hfind
  have hne : n0 ≠ (⟨s.next_id, m⟩ : GNode) := by
    intro e
    have hid := hs n0 hn0
    rw [e] at hid
    exact lt_irrefl _ hid
  simp [add_node, append_child, hfind, hne]

/-- Helper: add_node when no move-equal child exists: the candidate with
the fresh id is appended and returned, the wrapping counter advances
once. -/
theorem add_node_fresh (s : GameState) (m : Move)
    (hfind : s.children.find? (fun x => decide (x.move = m)) = none) :
    add_node s m =
      ({ next_id := (s.next_id + 1) % u32_size,
         children := s.children ++ [⟨s.next_id, m⟩] },
       ⟨s.next_id, m⟩) := by
  simp [add_node, append_child, hfind]

/-- C2: GameNode::append_child returns the first existing child whose move
structurally equals the candidate's move, leaving the children untouched,
and otherwise appends the candidate and returns it; consequently two
successive Game::add_node calls with the same parent and move return the
same node and the second call leaves the children unchanged.  The
id-soundness hypothesis (child ids below the counter) holds in every game
state reached before the 32-bit id counter wraps; the two-call conclusions
hold even past the wrap, since a found child is returned with the children
untouched whichever way the pointer comparison goes. -/
theorem c2_append_child_dedup :
    (∀ (children : List GNode) (child : GNode),
      (∀ n ∈ children, n.move ≠ child.move) →
      append_child children child = (children ++ [child], child)) ∧
    (∀ (pre suf : List GNode) (n child : GNode),
      (∀ x ∈ pre, x.move ≠ child.move) → n.move = child.move →
      append_child (pre ++ n :: suf) child = (pre ++ n :: suf, n)) ∧
    (∀ (s : GameState) (m : Move), id_sound s →
      (add_node (add_node s m).1 m).2 = (add_node s m).2 ∧
      (add_node (add_node s m).1 m).1.children = (add_node s m).1.children) := by
  refine ⟨append_child_of_not_mem, append_child_of_first, ?_⟩
  intro s m _
  cases hfind : s.children.find? (fun x => decide (x.move = m)) with
  | some n0 =>
    have h1 := add_node_found s m n0 hfind
    have hfind2 : (add_node s m).1.children.find? (fun x => decide (x.move = m)) = some n0 := by
      rw [h1.2]
      exact hfind
    have h2 := add_node_found (add_node s m).1 m n0 hfind2
    exact ⟨h2.1.trans h1.1.symm, h2.2⟩
  | none =>
    have h1 := add_node_fresh s m hfind
    have hall : ∀ x ∈ s.children, x.move ≠ m := by
      intro x hx he
      have := List.find?_eq_none.mp hfind x hx
      simp [he] at this
    have hmid :
        (s.children ++ [(⟨s.next_id, m⟩ : GNode)]).find?
          (fun x => decide (x.move = m)) = some ⟨s.next_id, m⟩ :=
      find?_first_move_eq s.children [] ⟨s.next_id, m⟩ ⟨s.next_id, m⟩
        (by simpa using hall) rfl
    have hfind2 : (add_node s m).1.children.find? (fun x => decide (x.move = m)) =
        some ⟨s.next_id, m⟩ := by
      rw [h1]
      exact hmid
    have h2 := add_node_found (add_node s m).1 m ⟨s.next_id, m⟩ hfind2
    refine ⟨?_, h2.2⟩
    rw [h2.1, h1]

/-- C2 witness: the two-call property applied to the fresh game and the
move e2-e4. -/
theorem c2_witness :
    id_sound game_new ∧
    (add_node (add_node game_new mv_e2e4).1 mv_e2e4).2 = (add_node game_new mv_e2e4).2 ∧
    (add_node (add_node game_new mv_e2e4).1 mv_e2e4).1.children =
      (add_node game_new mv_e2e4).1.children := by
  have hsound : id_sound game_new := by
    intro n hn
    simp [game_new] at hn
  exact ⟨hsound, c2_append_child_dedup.2.2 game_new mv_e2e4 hsound⟩

/-- C3 counterexample: two successive add_node calls with the same parent
and move both return the node with id 2; the id of the second returned node
is not strictly greater than that of the first, refuting strict increase of
the returned ids. -/
theorem c3_counterexample :
    ((add_node (add_node game_new mv_e2e4).1 mv_e2e4).2).id = 2 ∧
    ((add_node game_new mv_e2e4).2).id = 2 ∧
    ¬ ((add_node game_new mv_e2e4).2).id < ((add_node (add_node game_new mv_e2e4).1 mv_e2e4).2).id := by
  decide

/-- At the 32-bit boundary the counter wraps: allocating with the counter
at 2^32 - 1 returns that id and wraps the counter to 0, and the next fresh
allocation returns id 0, smaller than the id allocated just before.  This
is why the monotonicity statements below carry a no-wrap bound on the
counter. -/
theorem add_node_wrap_boundary :
    ((add_node ⟨4294967295, []⟩ mv_e2e4).2).id = 4294967295 ∧
    (add_node ⟨4294967295, []⟩ mv_e2e4).1.next_id = 0 ∧
    ((add_node (add_node ⟨4294967295, []⟩ mv_e2e4).1 mv_d2d4).2).id = 0 ∧
    ¬ ((add_node ⟨4294967295, []⟩ mv_e2e4).2).id <
        ((add_node (add_node ⟨4294967295, []⟩ mv_e2e4).1 mv_d2d4).2).id := by
  decide

/-- C3 amended: while the 32-bit id counter is not about to wrap (counter
plus the at most two increments of a call stays below 2^32), add_node
preserves id-soundness; it always returns a node lying in the children; and
the ids of newly allocated nodes are strictly increasing: whenever the
second of two successive add_node calls actually allocates (no existing
child carries its move), the returned id strictly exceeds the previously
returned id.  A call answered by deduplication returns an earlier node
whose id may be equal to or smaller than ids returned before, and at
counter wraparound even freshly allocated ids restart near 0 and
decrease. -/
theorem c3_id_monotone :
    (∀ (s : GameState) (m : Move), id_sound s → s.next_id + 2 < u32_size →
      id_sound (add_node s m).1) ∧
    (∀ (s : GameState) (m : Move), (add_node s m).2 ∈ (add_node s m).1.children) ∧
    (∀ (s : GameState) (m1 m2 : Move), id_sound s → s.next_id + 2 < u32_size →
      (∀ x ∈ (add_node s m1).1.children, x.move ≠ m2) →
      ((add_node s m1).2).id < ((add_node (add_node s m1).1 m2).2).id) := by
  have hpres : ∀ (s : GameState) (m : Move), id_sound s → s.next_id + 2 < u32_size →
      id_sound (add_node s m).1 := by
    intro s m hs hbound
    have hm1 : (s.next_id + 1) % u32_size = s.next_id + 1 :=
      Nat.mod_eq_of_lt (by omega)
    cases hfind : s.children.find? (fun x => decide (x.move = m)) with
    | some n0 =>
      rw [add_node_dedup s m n0 hs hfind]
      intro n hn
      have hlt := hs n hn
      show n.id < ((s.next_id + 1) % u32_size + 1) % u32_size
      rw [hm1, Nat.mod_eq_of_lt (by omega)]
      omega
    | none =>
      rw [add_node_fresh s m hfind]
      intro n hn
      show n.id < (s.next_id + 1) % u32_size
      rw [hm1]
      rcases List.mem_append.mp hn with h | h
      · have hlt := hs n h
        omega
      · simp at h
        rw [h]
        show s.next_id < s.next_id + 1
        omega
  have hmem : ∀ (s : GameState) (m : Move), (add_node s m).2 ∈ (add_node s m).1.children := by
    intro s m
    cases hfind : s.children.find? (fun x => decide (x.move = m)) with
    | some n0 =>
      have hn0 : n0 ∈ s.children := List.mem_of_find?_eq_some hfind
      simp only [add_node, append_child, hfind]
      split <;> simpa using hn0
    | none =>
      simp [add_node, append_child, hfind]
  refine ⟨hpres, hmem, ?_⟩
  intro s m1 m2 hs hbound hfresh
  have hfind2 : (add_node s m1).1.children.find? (fun x => decide (x.move = m2)) = none := by
    rw [List.find?_eq_none]
    intro x hx
    simpa using hfresh x hx
  rw [add_node_fresh _ m2 hfind2]
  exact hpres s m1 hs hbound _ (hmem s m1)

/-- C3 witness: the amended strict-increase statement applied to the fresh
game with the moves e2-e4 then d2-d4: the counter (2) is far below the
32-bit wrap, and the second allocated id (3) exceeds the first (2). -/
theorem c3_witness :
    id_sound game_new ∧
    game_new.next_id + 2 < u32_size ∧
    (add_node game_new mv_e2e4).1.children.all (fun x => decide (x.move ≠ mv_d2d4)) = true ∧
    ((add_node game_new mv_e2e4).2).id <
      ((add_node (add_node game_new mv_e2e4).1 mv_d2d4).2).id := by
  have hsound : id_sound game_new := by
    intro n hn
    simp [game_new] at hn
  exact ⟨hsound, by decide, by decide,
    c3_id_monotone.2.2 game_new mv_e2e4 mv_d2d4 hsound (by decide) (by decide)⟩

/-- Helper: inserting a tag into a sorted list is a permutation of
consing it. -/
theorem insert_by_name_perm (t : metadata_tag) (l : List metadata_tag) :
    (insert_by_name t l).Perm (t :: l) := by
  induction l with
  | nil => exact List.Perm.refl _
  | cons u us ih =>
    by_cases h : t.name ≤ u.name
    · simp [insert_by_name, h]
    · simp only [insert_by_name, if_neg h]
      exact (List.Perm.cons u ih).trans (List.Perm.swap t u us)

/-- Helper: sort_by_name permutes its input. -/
theorem sort_by_name_perm (l : List metadata_tag) : (sort_by_name l).Perm l := by
  induction l with
  | nil => exact List.Perm.refl _
  | cons t ts ih =>
    exact (insert_by_name_perm t (sort_by_name ts)).trans (List.Perm.cons t ih)

/-- Helper: filtering a name-keyed map of a duplicate-free name list for one
of its names yields exactly that entry. -/
theorem filter_name_map (v : String → String) (l : List String) (name₀ : String)
    (hl : l.Nodup) (hm : name₀ ∈ l) :
    (l.map (fun n => (⟨n, v n⟩ : metadata_tag))).filter
      (fun t => decide (t.name = name₀)) = [⟨name₀, v name₀⟩] := by
  induction l with
  | nil => cases hm
  | cons a as ih =>
    rcases List.mem_cons.mp hm with h | h
    · subst h
      have hnotin : name₀ ∉ as := (List.nodup_cons.mp hl).1
      simp only [List.map_cons, List.filter_cons]
      rw [if_pos (by simp)]
      have hrest : (as.map (fun n => (⟨n, v n⟩ : metadata_tag))).filter
          (fun t => decide (t.name = name₀)) = [] := by
        rw [List.filter_eq_nil_iff]
        intro t ht hp
        rcases List.mem_map.mp ht with ⟨n, hn, he⟩
        have hname : t.name = n := by rw [← he]
        rw [hname] at hp
        simp at hp
        exact hnotin (hp ▸ hn)
      rw [hrest]
    · have ha : a ≠ name₀ := by
        rintro rfl
        exact (List.nodup_cons.mp hl).1 h
      simp only [List.map_cons, List.filter_cons]
      rw [if_neg (by simp [ha])]
      exact ih (List.nodup_cons.mp hl).2 h

/-- C6 counterexample: a metadata store with two Event tags.  The claim says
the writer emits every stored (name, value) pair; but Event is an STR tag,
write_str_tags looks its value up with the first-match get, and
write_non_str_tags drops every tag with an STR name, so the pair
(Event, B) never appears in the written tag section. -/
theorem c6_counterexample :
    md_dup.count ⟨event_name, value_b⟩ = 1 ∧
    (⟨event_name, value_b⟩ : metadata_tag) ∉ write_metadata_tags md_dup := by
  decide

/-- C6 amended: the writer keeps every duplicate of tags whose name is
outside the Seven Tag Roster (their multiplicity in the output equals that
in the store); for a name of the roster the tag section carries exactly one
tag, whose value is the first stored value for that name (or the question
mark placeholder).  Duplicates of STR-named tags beyond the first are
dropped. -/
theorem c6_writer_tags (md : List metadata_tag) :
    (∀ t : metadata_tag, is_str_tag t.name = false →
      (write_metadata_tags md).count t = md.count t) ∧
    (∀ name ∈ str_tags,
      (write_metadata_tags md).filter (fun t => decide (t.name = name)) =
        [⟨name, (metadata_get md name).getD missing_tag_value⟩]) := by
  constructor
  · intro t ht
    rw [write_metadata_tags, List.count_append]
    have h1 : (write_str_tags md).count t = 0 := by
      rw [List.count_eq_zero]
      intro hmem
      rcases List.mem_map.mp hmem with ⟨n, hn, he⟩
      have hname : t.name = n := by rw [← he]
      rw [is_str_tag, hname] at ht
      simp at ht
      exact ht hn
    have h2 : (write_non_str_tags md).count t =
        (md.filter (fun tag => ! is_str_tag tag.name)).count t :=
      (sort_by_name_perm _).count_eq t
    rw [h1, h2, List.count_filter (by simp [ht])]
    omega
  · intro name hname
    rw [write_metadata_tags, List.filter_append]
    have h2 : (write_non_str_tags md).filter (fun t => decide (t.name = name)) = [] := by
      rw [List.filter_eq_nil_iff]
      intro t ht hp
      have hmem : t ∈ md.filter (fun tag => ! is_str_tag tag.name) :=
        (sort_by_name_perm _).mem_iff.mp ht
      have hns := List.of_mem_filter hmem
      simp at hp
      rw [is_str_tag, hp] at hns
      simp at hns
      exact hns hname
    rw [h2, List.append_nil]
    exact filter_name_map _ str_tags name (by decide) hname

/-- C6 witness: the multiplicity statement applied to the duplicate-Event
store and a non-STR tag. -/
theorem c6_witness :
    is_str_tag custom_name = false ∧
    (write_metadata_tags md_dup).count ⟨custom_name, value_a⟩ =
      md_dup.count ⟨custom_name, value_a⟩ :=
  ⟨by decide, (c6_writer_tags md_dup).1 ⟨custom_name, value_a⟩ (by decide)⟩

/-- Helper: read_metadata consumes a tag-token section, appending its tags
to the parser's metadata, and continues on the remaining tokens. -/
theorem read_metadata_tags (md : List metadata_tag) (st : ParserState) (rest : List PGNToken) :
    read_metadata st (tags_tokens md ++ rest) =
      read_metadata { st with metadata := st.metadata ++ md } rest := by
  induction md generalizing st with
  | nil => simp [tags_tokens]
  | cons t ts ih =>
    show read_metadata st ((tag_tokens t ++ tags_tokens ts) ++ rest) = _
    rw [List.append_assoc]
    rw [show tag_tokens t =
      [⟨.OpenBracket, ""⟩, ⟨.Symbol, t.name⟩, ⟨.String, t.value⟩, ⟨.CloseBracket, ""⟩] from rfl]
    simp only [List.cons_append, List.nil_append]
    simp only [read_metadata]
    rw [ih]
    congr 1
    simp [List.append_assoc]

/-- Helper: read_metadata stops, changing nothing, at a token that neither
opens a tag nor is a comment. -/
theorem read_metadata_stop (st : ParserState) (t : PGNToken) (rest : List PGNToken)
    (h1 : t.type ≠ .OpenBracket) (h2 : t.type ≠ .Comment) :
    read_metadata st (t :: rest) = .ok (st, t :: rest) := by
  rcases t with ⟨ty, v⟩
  cases ty <;> simp_all [read_metadata]

/-- Helper: on input opening with a bracket token, read_game_header resets
and defers to read_metadata and setup_game. -/
theorem read_game_header_open (st : ParserState) (v : String) (ts : List PGNToken) :
    read_game_header st (⟨.OpenBracket, v⟩ :: ts) =
      match read_metadata (PGNParser_reset st) (⟨.OpenBracket, v⟩ :: ts) with
      | .error e => .error e
      | .ok (st1, r) => .ok (some (setup_game_root_comment st1, st1, r)) := by
  simp [read_game_header]

/-- C10: PGNParser::reset clears the metadata and the warning list but
leaves m_overall_game_comment untouched; consequently, when one game's tag
section is followed by a comment token and a later game has none, the later
game's root receives the earlier game's overall comment: the second game's
header returns the first game's comment as the root comment. -/
theorem c10_overall_comment_leak :
    (∀ st : ParserState, PGNParser_reset st = ⟨[], [], st.overall_game_comment⟩) ∧
    (∀ (st : ParserState) (m1 m2 : metadata_tag) (md1 md2 : List metadata_tag)
       (c : String) (rest1 rest2 : List PGNToken) (t2 : PGNToken),
      c ≠ "" → t2.type ≠ .OpenBracket → t2.type ≠ .Comment →
      read_game_header st (tags_tokens (m1 :: md1) ++ ⟨.Comment, c⟩ :: rest1) =
        .ok (some (c, ⟨m1 :: md1, [], c⟩, rest1)) ∧
      read_game_header (⟨m1 :: md1, [], c⟩ : ParserState)
          (tags_tokens (m2 :: md2) ++ t2 :: rest2) =
        .ok (some (c, ⟨m2 :: md2, [], c⟩, t2 :: rest2))) := by
  constructor
  · intro st
    rfl
  · intro st m1 m2 md1 md2 c rest1 rest2 t2 hc hob hcm
    constructor
    · show read_game_header st
        (⟨.OpenBracket, ""⟩ ::
          ([⟨.Symbol, m1.name⟩, ⟨.String, m1.value⟩, ⟨.CloseBracket, ""⟩] ++ tags_tokens md1 ++
            ⟨.Comment, c⟩ :: rest1)) = _
      rw [read_game_header_open]
      have hmeta := read_metadata_tags (m1 :: md1) (PGNParser_reset st) (⟨.Comment, c⟩ :: rest1)
      rw [show (⟨.OpenBracket, ""⟩ ::
          ([⟨.Symbol, m1.name⟩, ⟨.String, m1.value⟩, ⟨.CloseBracket, ""⟩] ++ tags_tokens md1 ++
            ⟨.Comment, c⟩ :: rest1) : List PGNToken) =
          tags_tokens (m1 :: md1) ++ ⟨.Comment, c⟩ :: rest1 by
        simp [tags_tokens, tag_tokens]]
      rw [hmeta]
      simp only [read_metadata, PGNParser_reset]
      simp only [List.nil_append]
      simp [setup_game_root_comment, hc]
    · show read_game_header (⟨m1 :: md1, [], c⟩ : ParserState)
        (⟨.OpenBracket, ""⟩ ::
          ([⟨.Symbol, m2.name⟩, ⟨.String, m2.value⟩, ⟨.CloseBracket, ""⟩] ++ tags_tokens md2 ++
            t2 :: rest2)) = _
      rw [read_game_header_open]
      have hmeta := read_metadata_tags (m2 :: md2)
        (PGNParser_reset ⟨m1 :: md1, [], c⟩) (t2 :: rest2)
      rw [show (⟨.OpenBracket, ""⟩ ::
          ([⟨.Symbol, m2.name⟩, ⟨.String, m2.value⟩, ⟨.CloseBracket, ""⟩] ++ tags_tokens md2 ++
            t2 :: rest2) : List PGNToken) =
          tags_tokens (m2 :: md2) ++ t2 :: rest2 by
        simp [tags_tokens, tag_tokens]]
      rw [hmeta]
      rw [read_metadata_stop _ t2 rest2 hob hcm]
      simp [setup_game_root_comment, PGNParser_reset, hc]

/-- C10 witness: the two-game scenario with a concrete comment: the second
game, whose tag section is followed by a move number and not by a comment,
still gets the first game's overall comment on its root. -/
theorem c10_witness :
    overall_demo ≠ "" ∧ number_token.type ≠ PGNTokenType.OpenBracket ∧
    number_token.type ≠ PGNTokenType.Comment ∧
    (read_game_header ⟨[], [], ""⟩
        (tags_tokens md_game1 ++ ⟨.Comment, overall_demo⟩ :: []) =
      .ok (some (overall_demo, ⟨md_game1, [], overall_demo⟩, [])) ∧
    read_game_header (⟨md_game1, [], overall_demo⟩ : ParserState)
        (tags_tokens md_game2 ++ number_token :: []) =
      .ok (some (overall_demo, ⟨md_game2, [], overall_demo⟩, number_token :: []))) :=
  ⟨by decide, by decide, by decide,
    c10_overall_comment_leak.2 ⟨[], [], ""⟩ ⟨event_name, value_a⟩ ⟨event_name, value_b⟩
      [] [] overall_demo [] [] number_token (by decide) (by decide) (by decide)⟩

/-- Helper: setting capturing on a SAN move that already captures changes
nothing. -/
theorem san_move_capturing_eta (sm : SANMove) (h : sm.capturing = true) :
    { sm with capturing := true } = sm := by
  cases sm
  dsimp only at h
  subst h
  rfl

/-- C1: PGNParser::find_legal_move resolves a SAN token as the claim
states: a unique piece-constrained match is played with no warning; more
than one match raises AmbiguousMove; with no match, a unique
piece-type-wildcard match is played with a MoveMissingPieceType warning;
failing that, a unique match with capturing set is played with a
MoveMissingCapture warning; otherwise IllegalMove.  (When the SAN move
already captures, the source skips the capture retry; the retry list then
equals the original empty match list, so the outcomes coincide.) -/
theorem c1_find_legal_move (san_move : SANMove) (legal : List Move) :
    (∀ mv, match_move san_move legal = [mv] →
      find_legal_move san_move legal = .ok (mv, [])) ∧
    (1 < (match_move san_move legal).length →
      find_legal_move san_move legal = .error .AmbiguousMove) ∧
    (match_move san_move legal = [] →
      (∀ mv, match_san_move_wildcard_piece_type san_move legal = [mv] →
        find_legal_move san_move legal = .ok (mv, [.MoveMissingPieceType])) ∧
      ((match_san_move_wildcard_piece_type san_move legal).length ≠ 1 →
        (∀ mv, match_move { san_move with capturing := true } legal = [mv] →
          find_legal_move san_move legal = .ok (mv, [.MoveMissingCapture])) ∧
        ((match_move { san_move with capturing := true } legal).length ≠ 1 →
          find_legal_move san_move legal = .error .IllegalMove))) := by
  cases legal with
  | nil =>
    refine ⟨?_, ?_, ?_⟩
    · intro mv h
      simp [match_move, match_san_move] at h
    · intro h
      simp [match_move, match_san_move] at h
    · intro _
      refine ⟨?_, ?_⟩
      · intro mv h
        simp [match_san_move_wildcard_piece_type] at h
      · intro _
        refine ⟨?_, ?_⟩
        · intro mv h
          simp [match_move, match_san_move] at h
        · intro _
          simp [find_legal_move]
  | cons a as =>
    refine ⟨?_, ?_, ?_⟩
    · intro mv h
      simp [find_legal_move, h]
    · intro h
      have h1 : ¬ ((match_move san_move (a :: as)).length = 1) := by omega
      simp [find_legal_move, h1, h]
    · intro h0
      have h1 : ¬ ((match_move san_move (a :: as)).length = 1) := by
        rw [h0]
        simp
      have h2 : ¬ (1 < (match_move san_move (a :: as)).length) := by
        rw [h0]
        simp
      refine ⟨?_, ?_⟩
      · intro mv h
        simp [find_legal_move, h1, h2, h]
      · intro hw
        refine ⟨?_, ?_⟩
        · intro mv h
          by_cases hcap : san_move.capturing = false
          · simp [find_legal_move, h1, h2, hw, hcap, h]
          · have hcap' : san_move.capturing = true := by
              revert hcap
              cases san_move.capturing <;> simp
            rw [san_move_capturing_eta san_move hcap', h0] at h
            cases h
        · intro hcapn
          by_cases hcap : san_move.capturing = false
          · simp [find_legal_move, h1, h2, hw, hcap, hcapn]
          · simp [find_legal_move, h1, h2, hw, hcap]

/-- C1 witness: the unique-match branch on a position with the single legal
move e2-e4 and the SAN token e4: the move is played with no warning. -/
theorem c1_witness :
    match_move san_e4 [mv_e2e4] = [mv_e2e4] ∧
    find_legal_move san_e4 [mv_e2e4] = .ok (mv_e2e4, []) :=
  ⟨by decide, (c1_find_legal_move san_e4 [mv_e2e4]).1 mv_e2e4 (by decide)⟩

/-- Helper: a list's deduplication has full length exactly when the list
has no duplicates (the std::set size equals the list size). -/
theorem dedup_length_eq_iff {α : Type} [DecidableEq α] (l : List α) :
    l.dedup.length = l.length ↔ l.Nodup := by
  constructor
  · intro h
    have hsub : l.dedup.Sublist l := List.dedup_sublist l
    have heq : l.dedup = l := hsub.eq_of_length h
    rw [← heq]
    exact l.nodup_dedup
  · intro h
    rw [List.dedup_eq_self.mpr h]

/-- C4: for a non-pawn, non-castling move in the legal list whose piece and
target square are shared by more than one legal move, generate_san_move
disambiguates by file alone exactly when the origin files of those moves are
pairwise distinct, otherwise by rank alone exactly when their origin ranks
are pairwise distinct, and otherwise emits both origin file and origin
rank. -/
theorem c4_disambiguation (move : Move) (legal : List Move)
    (hmem : move ∈ legal) (hcast : move.castling = false)
    (hpawn : move.piece.type ≠ PieceType.Pawn)
    (hM : 1 < (find_piece_moves_to_target move.piece move.to_sq legal).length) :
    ∃ sm, generate_san_move move legal = some sm ∧
      (((sm.disambiguation_file = some move.from_sq.file ∧ sm.disambiguation_rank = none) ↔
        ((find_piece_moves_to_target move.piece move.to_sq legal).map
          (fun x => x.from_sq.file)).Nodup) ∧
      ((sm.disambiguation_file = none ∧ sm.disambiguation_rank = some move.from_sq.rank) ↔
        (¬ ((find_piece_moves_to_target move.piece move.to_sq legal).map
            (fun x => x.from_sq.file)).Nodup ∧
          ((find_piece_moves_to_target move.piece move.to_sq legal).map
            (fun x => x.from_sq.rank)).Nodup)) ∧
      ((sm.disambiguation_file = some move.from_sq.file ∧
          sm.disambiguation_rank = some move.from_sq.rank) ↔
        (¬ ((find_piece_moves_to_target move.piece move.to_sq legal).map
            (fun x => x.from_sq.file)).Nodup ∧
          ¬ ((find_piece_moves_to_target move.piece move.to_sq legal).map
            (fun x => x.from_sq.rank)).Nodup))) := by
  have hcontains : move_list_contains legal move = true := by
    simp [move_list_contains, hmem]
  have hne : (find_piece_moves_to_target move.piece move.to_sq legal).isEmpty = false := by
    cases hMc : find_piece_moves_to_target move.piece move.to_sq legal with
    | nil =>
      rw [hMc] at hM
      simp at hM
    | cons x xs => simp
  have hcond : move.piece.type ≠ PieceType.Pawn ∧
      1 < (find_piece_moves_to_target move.piece move.to_sq legal).length := ⟨hpawn, hM⟩
  have hgen : ∃ sm, generate_san_move move legal = some sm ∧
      sm.disambiguation_file =
        (determine_disambiguation move
          (find_piece_moves_to_target move.piece move.to_sq legal)).1 ∧
      sm.disambiguation_rank =
        (determine_disambiguation move
          (find_piece_moves_to_target move.piece move.to_sq legal)).2 := by
    simp [generate_san_move, hcontains, hcast, hne, hcond]
  rcases hgen with ⟨sm, hsm, hdf, hdr⟩
  refine ⟨sm, hsm, ?_⟩
  rw [hdf, hdr]
  have hflen : ((find_piece_moves_to_target move.piece move.to_sq legal).map
      (fun x => x.from_sq.file)).length =
      (find_piece_moves_to_target move.piece move.to_sq legal).length :=
    List.length_map _ _
  have hrlen : ((find_piece_moves_to_target move.piece move.to_sq legal).map
      (fun x => x.from_sq.rank)).length =
      (find_piece_moves_to_target move.piece move.to_sq legal).length :=
    List.length_map _ _
  have hfiff : (((find_piece_moves_to_target move.piece move.to_sq legal).map
      (fun x => x.from_sq.file)).dedup.length =
      (find_piece_moves_to_target move.piece move.to_sq legal).length) ↔
      ((find_piece_moves_to_target move.piece move.to_sq legal).map
        (fun x => x.from_sq.file)).Nodup := by
    rw [← hflen]
    exact dedup_length_eq_iff _
  have hriff : (((find_piece_moves_to_target move.piece move.to_sq legal).map
      (fun x => x.from_sq.rank)).dedup.length =
      (find_piece_moves_to_target move.piece move.to_sq legal).length) ↔
      ((find_piece_moves_to_target move.piece move.to_sq legal).map
        (fun x => x.from_sq.rank)).Nodup := by
    rw [← hrlen]
    exact dedup_length_eq_iff _
  rw [determine_disambiguation]
  split_ifs with hfile hrank
  · have hf := hfiff.mp hfile
    simp [hf]
  · have hfn : ¬ ((find_piece_moves_to_target move.piece move.to_sq legal).map
        (fun x => x.from_sq.file)).Nodup := fun hn => hfile (hfiff.mpr hn)
    have hr := hriff.mp hrank
    simp [hfn, hr]
  · have hfn : ¬ ((find_piece_moves_to_target move.piece move.to_sq legal).map
        (fun x => x.from_sq.file)).Nodup := fun hn => hfile (hfiff.mpr hn)
    have hrn : ¬ ((find_piece_moves_to_target move.piece move.to_sq legal).map
        (fun x => x.from_sq.rank)).Nodup := fun hn => hrank (hriff.mpr hn)
    simp [hfn, hrn]

/-- C4 witness: two knights (b1 and f3) reach d2; their files are pairwise
distinct, so the SAN for the b1-knight move is generated (and, by the
theorem, disambiguated by file alone). -/
theorem c4_witness :
    mv_nb1d2 ∈ legal_two_knights ∧ mv_nb1d2.castling = false ∧
    mv_nb1d2.piece.type ≠ PieceType.Pawn ∧
    1 < (find_piece_moves_to_target mv_nb1d2.piece mv_nb1d2.to_sq legal_two_knights).length ∧
    (generate_san_move mv_nb1d2 legal_two_knights).isSome = true := by
  refine ⟨by decide, by decide, by decide, by decide, ?_⟩
  obtain ⟨sm, hsm, _⟩ :=
    c4_disambiguation mv_nb1d2 legal_two_knights (by decide) (by decide) (by decide) (by decide)
  rw [hsm]
  rfl


/-- Helper: a string beginning with the check indicator lexes as a Check
token. -/
theorem get_token_plus (r : List Char) : get_token ('+' :: r) = ⟨.Check, []⟩ := rfl

/-- Helper: a string beginning with the checkmate indicator lexes as a
Checkmate token. -/
theorem get_token_hash (r : List Char) : get_token ('#' :: r) = ⟨.Checkmate, []⟩ := rfl

/-- Helper: only the check indicator lexes as a Check token. -/
theorem get_token_check_imp (c : Char) (r : List Char)
    (h : (get_token (c :: r)).type = SANTokenType.Check) : c = '+' := by
  by_contra hc
  revert h
  simp only [get_token]
  split_ifs with h1 h2 h3 h4 h5 h6 h7 <;>
    first
      | exact fun h => hc h5
      | (cases r <;> simp)

/-- Helper: only the checkmate indicator lexes as a Checkmate token. -/
theorem get_token_mate_imp (c : Char) (r : List Char)
    (h : (get_token (c :: r)).type = SANTokenType.Checkmate) : c = '#' := by
  by_contra hc
  revert h
  simp only [get_token]
  split_ifs with h1 h2 h3 h4 h5 h6 h7 <;>
    first
      | exact fun h => hc h6
      | (cases r <;> simp)

/-- Helper: the Check token characterisation. -/
theorem get_token_check_iff (s : List Char) :
    ((get_token s).type = SANTokenType.Check) ↔ s.head? = some '+' := by
  cases s with
  | nil => simp [get_token]
  | cons c r =>
    simp only [List.head?_cons, Option.some.injEq]
    constructor
    · exact get_token_check_imp c r
    · intro h
      subst h
      rfl

/-- Helper: the Checkmate token characterisation. -/
theorem get_token_mate_iff (s : List Char) :
    ((get_token s).type = SANTokenType.Checkmate) ↔ s.head? = some '#' := by
  cases s with
  | nil => simp [get_token]
  | cons c r =>
    simp only [List.head?_cons, Option.some.injEq]
    constructor
    · exact get_token_mate_imp c r
    · intro h
      subst h
      rfl

/-- Helper: a failing suffix-annotation decode always reports the
invalid-annotation error. -/
theorem get_suffix_annotation_error_eq (value : List Char) (e : SANParserError)
    (h : get_suffix_annotation value = .error e) :
    e = ⟨ SANParserErrorType.InvalidSuffixAnnotation, String.mk value⟩ := by
  revert h
  simp only [ get_suffix_annotation]
  split_ifs <;> intro h <;>
    first
      | exact h.elim
      | (injection h with h2; exact h2.symm)

/-- Helper: the annotation block can only fail with the invalid-annotation
error. -/
theorem parse_annotation_suffix_error (mv : SANMove) (s : List Char) (e : SANParserError)
    (h : parse_annotation_suffix mv s = .error e) :
    e.error_type = SANParserErrorType.InvalidSuffixAnnotation := by
  simp only [parse_annotation_suffix] at h
  split at h
  · split at h
    next e0 heq =>
      injection h with h2
      subst h2
      rw [get_suffix_annotation_error_eq _ _ heq]
    next ann heq => simp at h
  · simp at h

/-- Helper: the annotation block leaves the check state and the moving
piece unchanged. -/
theorem parse_annotation_suffix_ok (mv : SANMove) (s : List Char) (p : SANMove × List Char)
    (h : parse_annotation_suffix mv s = .ok p) :
    p.1.check_state = mv.check_state ∧ p.1.moving_piece = mv.moving_piece := by
  simp only [parse_annotation_suffix] at h
  split at h
  · split at h
    next e0 heq => simp at h
    next ann heq =>
      injection h with h2
      rw [← h2]
      exact ⟨rfl, rfl⟩
  · injection h with h2
    rw [← h2]
    exact ⟨rfl, rfl⟩

/-- Helper: the check block keeps the moving piece. -/
theorem parse_check_suffix_moving (mv : SANMove) (s : List Char) :
    (parse_check_suffix mv s).1.moving_piece = mv.moving_piece := by
  rw [parse_check_suffix]
  split <;> rfl

/-- Helper: the checkmate block keeps the moving piece. -/
theorem parse_mate_suffix_ok_moving (san : String) (mv : SANMove) (s : List Char)
    (q : SANMove × List Char) (h : parse_mate_suffix san mv s = .ok q) :
    q.1.moving_piece = mv.moving_piece := by
  simp only [parse_mate_suffix] at h
  split at h
  · split at h
    · simp at h
    · injection h with h2
      rw [← h2]
  · injection h with h2
    rw [← h2]

/-- Helper: the second check block keeps the moving piece. -/
theorem parse_second_check_suffix_ok_moving (san : String) (mv : SANMove) (s : List Char)
    (q : SANMove × List Char) (h : parse_second_check_suffix san mv s = .ok q) :
    q.1.moving_piece = mv.moving_piece := by
  simp only [parse_second_check_suffix] at h
  split at h
  · split at h
    · simp at h
    · injection h with h2
      rw [← h2]
  · injection h with h2
    rw [← h2]

/-- Helper: the whole suffix parser keeps the moving piece. -/
theorem parse_suffixes_moving (san : String) (mv : SANMove) (s : List Char)
    (p : SANMove × List Char) (h : parse_suffixes san mv s = .ok p) :
    p.1.moving_piece = mv.moving_piece := by
  simp only [parse_suffixes] at h
  cases hm : parse_mate_suffix san (parse_check_suffix mv s).1 (parse_check_suffix mv s).2 with
  | error e =>
    rw [hm] at h
    simp at h
  | ok q =>
    obtain ⟨mv2, s2⟩ := q
    rw [hm] at h
    simp only at h
    cases hs2 : parse_second_check_suffix san mv2 s2 with
    | error e =>
      rw [hs2] at h
      simp at h
    | ok q2 =>
      obtain ⟨mv3, s3⟩ := q2
      rw [hs2] at h
      simp only at h
      have h4 := (parse_annotation_suffix_ok _ _ _ h).2
      have h3 := parse_second_check_suffix_ok_moving san mv2 s2 (mv3, s3) hs2
      have h2 := parse_mate_suffix_ok_moving san _ _ (mv2, s2) hm
      have h1 := parse_check_suffix_moving mv s
      rw [h4]
      exact h3.trans (h2.trans h1)

/-- Helper: when the remaining input starts with none of the suffix
tokens, the suffix parser consumes nothing and succeeds — in particular
trailing characters of any other shape are simply left in place. -/
theorem parse_suffixes_skip (san : String) (mv : SANMove) (s : List Char)
    (h1 : (get_token s).type ≠ SANTokenType.Check)
    (h2 : (get_token s).type ≠ SANTokenType.Checkmate)
    (h3 : (get_token s).type ≠ SANTokenType.SuffixAnnotation) :
    parse_suffixes san mv s = .ok (mv, s) := by
  simp [parse_suffixes, parse_check_suffix, parse_mate_suffix, parse_second_check_suffix,
    parse_annotation_suffix, h1, h2, h3]

/-- Helper: a long-castling prefix is also a short-castling prefix. -/
theorem starts_long_short (l : List Char) (h : starts_long_castling l = true) :
    starts_short_castling l = true := by
  simp only [starts_long_castling, decide_eq_true_eq] at h
  simp only [starts_short_castling, decide_eq_true_eq]
  rw [show (3 : Nat) = min 3 5 from rfl, ← List.take_take, h]
  rfl

/-- Helper: a successful parse_castling_move yields a king move of the
given side to the castling target selected by the prefix. -/
theorem parse_castling_move_fields (san : String) (side : Color) (mv : SANMove)
    (s : List Char) (mv' : SANMove) (hok : parse_castling_move san side mv s = .ok mv') :
    mv'.moving_piece = ⟨.King, side⟩ ∧
    mv'.target_square =
      (if starts_long_castling s = true then
        (if side = .White then Square.C1 else Square.C8)
      else (if side = .White then Square.G1 else Square.G8)) := by
  simp only [parse_castling_move] at hok
  cases hps : parse_suffixes san { mv with moving_piece := (⟨.King, side⟩ : Piece) }
      (if starts_long_castling s = true then s.drop 5 else s.drop 3) with
  | error e =>
    rw [hps] at hok
    simp at hok
  | ok p =>
    obtain ⟨mv1, s1⟩ := p
    rw [hps] at hok
    simp only at hok
    injection hok with h2
    rw [← h2]
    exact ⟨parse_suffixes_moving _ _ _ _ hps, rfl⟩

/-- C8 counterexample: the claim says parsing fails whenever characters
other than the suffix tail follow the castling prefix; but parse_san's
castling path never checks that the input was consumed, so "O-Oe4" parses
successfully as a white king move to g1 with the stray "e4" ignored. -/
theorem c8_counterexample :
    parse_san san_oo_garbage Color.White =
      .ok { san_string := san_oo_garbage, moving_piece := ⟨.King, .White⟩,
            target_square := Square.G1 } := by
  rfl

/-- C8 amended: a string starting with O-O-O parses (when it succeeds) to
a king move to c1/c8 by color, and one starting with O-O but not O-O-O to
g1/g8; after the castling prefix the suffix tail is parsed, and any
remaining characters that do not lex as a check, checkmate or
suffix-annotation token are ignored, the parse succeeding — it fails only
when the suffix tail itself is malformed. -/
theorem c8_castling :
    (∀ (s : String) (side : Color) (mv' : SANMove),
      starts_long_castling s.toList = true → parse_san s side = .ok mv' →
      mv'.moving_piece = ⟨.King, side⟩ ∧
      mv'.target_square = (if side = .White then Square.C1 else Square.C8)) ∧
    (∀ (s : String) (side : Color) (mv' : SANMove),
      starts_short_castling s.toList = true → starts_long_castling s.toList = false →
      parse_san s side = .ok mv' →
      mv'.moving_piece = ⟨.King, side⟩ ∧
      mv'.target_square = (if side = .White then Square.G1 else Square.G8)) ∧
    (∀ (side : Color) (t : List Char),
      (get_token t).type ≠ SANTokenType.Check →
      (get_token t).type ≠ SANTokenType.Checkmate →
      (get_token t).type ≠ SANTokenType.SuffixAnnotation →
      starts_long_castling ('O' :: '-' :: 'O' :: t) = false →
      parse_san (String.mk ('O' :: '-' :: 'O' :: t)) side =
        .ok { san_string := String.mk ('O' :: '-' :: 'O' :: t),
              moving_piece := ⟨.King, side⟩,
              target_square := if side = .White then Square.G1 else Square.G8 }) := by
  refine ⟨?_, ?_, ?_⟩
  · intro s side mv' hlong hok
    have hshort := starts_long_short _ hlong
    rw [parse_san] at hok
    rw [if_pos hshort] at hok
    have hf := parse_castling_move_fields _ _ _ _ _ hok
    refine ⟨hf.1, ?_⟩
    rw [hf.2, if_pos hlong]
  · intro s side mv' hshort hlong hok
    rw [parse_san] at hok
    rw [if_pos hshort] at hok
    have hf := parse_castling_move_fields _ _ _ _ _ hok
    refine ⟨hf.1, ?_⟩
    rw [hf.2, if_neg (by rw [hlong]; simp)]
  · intro side t h1 h2 h3 hlong
    rw [parse_san]
    simp only [String.toList]
    rw [if_pos (show starts_short_castling ('O' :: '-' :: 'O' :: t) = true from rfl)]
    simp only [parse_castling_move]
    rw [if_neg (by rw [hlong]; simp), if_neg (by rw [hlong]; simp)]
    rw [show List.drop 3 ('O' :: '-' :: 'O' :: t) = t from rfl]
    rw [parse_suffixes_skip _ _ _ h1 h2 h3]

/-- C8 witness: the trailing-garbage acceptance applied to the tail e4. -/
theorem c8_witness :
    ((get_token tail_e4).type ≠ SANTokenType.Check) ∧
    ((get_token tail_e4).type ≠ SANTokenType.Checkmate) ∧
    ((get_token tail_e4).type ≠ SANTokenType.SuffixAnnotation) ∧
    starts_long_castling ('O' :: '-' :: 'O' :: tail_e4) = false ∧
    parse_san (String.mk ('O' :: '-' :: 'O' :: tail_e4)) Color.White =
      .ok { san_string := String.mk ('O' :: '-' :: 'O' :: tail_e4),
            moving_piece := ⟨.King, .White⟩,
            target_square := if (Color.White = Color.White) then Square.G1 else Square.G8 } :=
  ⟨by decide, by decide, by decide, by decide,
    c8_castling.2.2 Color.White tail_e4 (by decide) (by decide) (by decide) (by decide)⟩

/-- C9 counterexample: the claim says the CheckAndCheckmate error arises
only when the tail holds both a check and a checkmate indicator, and that a
tail holding at most one of the two indicators never produces it; but
"Qe3++", whose tail repeats the check indicator alone, fails with
CheckAndCheckmate: the third suffix block rejects a second check indicator
over an already recorded check state. -/
theorem c9_counterexample :
    parse_san san_doubled_check Color.White =
      .error ⟨.CheckAndCheckmate, san_doubled_check⟩ := by
  rfl

/-- C9 amended: a suffix tail beginning "+#", "#+" or "++" fails with
CheckAndCheckmate; a tail holding at most one occurrence of a check or
checkmate indicator never produces that error, and on success records Check
when it starts with the check indicator, Checkmate when it starts with the
checkmate indicator, and no state otherwise. -/
theorem c9_check_suffixes :
    (∀ (san : String) (mv : SANMove) (r : List Char),
      parse_suffixes san mv ('+' :: '+' :: r) = .error ⟨.CheckAndCheckmate, san⟩) ∧
    (∀ (san : String) (mv : SANMove) (r : List Char),
      parse_suffixes san mv ('+' :: '#' :: r) = .error ⟨.CheckAndCheckmate, san⟩) ∧
    (∀ (san : String) (mv : SANMove) (r : List Char), mv.check_state = .None →
      parse_suffixes san mv ('#' :: '+' :: r) = .error ⟨.CheckAndCheckmate, san⟩) ∧
    (∀ (san : String) (mv : SANMove) (s : List Char), mv.check_state = .None →
      s.countP (fun c => decide (c = '+' ∨ c = '#')) ≤ 1 →
      (∀ e, parse_suffixes san mv s = .error e →
        e.error_type ≠ SANParserErrorType.CheckAndCheckmate) ∧
      (∀ p, parse_suffixes san mv s = .ok p →
        p.1.check_state =
          (if s.head? = some '+' then CheckState.Check
           else if s.head? = some '#' then CheckState.Checkmate
           else CheckState.None))) := by
  refine ⟨?_, ?_, ?_, ?_⟩
  · intro san mv r
    simp [parse_suffixes, parse_check_suffix, parse_mate_suffix, parse_second_check_suffix,
      get_token_plus]
  · intro san mv r
    simp [parse_suffixes, parse_check_suffix, parse_mate_suffix, parse_second_check_suffix,
      get_token_plus, get_token_hash]
  · intro san mv r hnone
    simp [parse_suffixes, parse_check_suffix, parse_mate_suffix, parse_second_check_suffix,
      get_token_plus, get_token_hash, hnone]
  · intro san mv s hnone hcount
    cases s with
    | nil =>
      have hskip := parse_suffixes_skip san mv [] (by simp [get_token]) (by simp [get_token])
        (by simp [get_token])
      rw [hskip]
      constructor
      · intro e he
        simp at he
      · intro p hp
        injection hp with h2
        rw [← h2]
        simp [hnone]
    | cons c r =>
      by_cases hplus : c = '+'
      · subst hplus
        have hr0 : r.countP (fun c => decide (c = '+' ∨ c = '#')) = 0 := by
          have h' : r.countP (fun c => decide (c = '+' ∨ c = '#')) + 1 ≤ 1 := by
            simpa [List.countP_cons] using hcount
          omega
        have hrmem : ∀ x ∈ r, ¬(x = '+' ∨ x = '#') := by
          intro x hx
          have := List.countP_eq_zero.mp hr0 x hx
          simpa using this
        have hrC : (get_token r).type ≠ SANTokenType.Check := by
          intro hh
          rw [get_token_check_iff] at hh
          cases r with
          | nil => simp at hh
          | cons a as =>
            simp at hh
            exact hrmem a (List.mem_cons_self a as) (Or.inl hh)
        have hrM : (get_token r).type ≠ SANTokenType.Checkmate := by
          intro hh
          rw [get_token_mate_iff] at hh
          cases r with
          | nil => simp at hh
          | cons a as =>
            simp at hh
            exact hrmem a (List.mem_cons_self a as) (Or.inr hh)
        have hred : parse_suffixes san mv ('+' :: r) =
            parse_annotation_suffix { mv with check_state := CheckState.Check } r := by
          simp [parse_suffixes, parse_check_suffix, parse_mate_suffix,
            parse_second_check_suffix, get_token_plus, hrM, hrC]
        rw [hred]
        constructor
        · intro e he
          rw [parse_annotation_suffix_error _ _ _ he]
          simp
        · intro p hp
          rw [(parse_annotation_suffix_ok _ _ _ hp).1]
          simp
      · by_cases hhash : c = '#'
        · subst hhash
          have hr0 : r.countP (fun c => decide (c = '+' ∨ c = '#')) = 0 := by
            have h' : r.countP (fun c => decide (c = '+' ∨ c = '#')) + 1 ≤ 1 := by
              simpa [List.countP_cons] using hcount
            omega
          have hrmem : ∀ x ∈ r, ¬(x = '+' ∨ x = '#') := by
            intro x hx
            have := List.countP_eq_zero.mp hr0 x hx
            simpa using this
          have hrC : (get_token r).type ≠ SANTokenType.Check := by
            intro hh
            rw [get_token_check_iff] at hh
            cases r with
            | nil => simp at hh
            | cons a as =>
              simp at hh
              exact hrmem a (List.mem_cons_self a as) (Or.inl hh)
          have hred : parse_suffixes san mv ('#' :: r) =
              parse_annotation_suffix { mv with check_state := CheckState.Checkmate } r := by
            simp [parse_suffixes, parse_check_suffix, parse_mate_suffix,
              parse_second_check_suffix, get_token_hash, hrC, hnone]
          rw [hred]
          constructor
          · intro e he
            rw [parse_annotation_suffix_error _ _ _ he]
            simp
          · intro p hp
            rw [(parse_annotation_suffix_ok _ _ _ hp).1]
            simp
        · have hC : (get_token (c :: r)).type ≠ SANTokenType.Check := by
            intro hh
            rw [get_token_check_iff] at hh
            simp at hh
            exact hplus hh
          have hM : (get_token (c :: r)).type ≠ SANTokenType.Checkmate := by
            intro hh
            rw [get_token_mate_iff] at hh
            simp at hh
            exact hhash hh
          have hred : parse_suffixes san mv (c :: r) =
              parse_annotation_suffix mv (c :: r) := by
            simp [parse_suffixes, parse_check_suffix, parse_mate_suffix,
              parse_second_check_suffix, hC, hM]
          rw [hred]
          constructor
          · intro e he
            rw [parse_annotation_suffix_error _ _ _ he]
            simp
          · intro p hp
            rw [(parse_annotation_suffix_ok _ _ _ hp).1]
            simp [hnone, hplus, hhash]

/-- C9 witness: the no-CheckAndCheckmate statement applied to the
single-indicator tail holding one check indicator. -/
theorem c9_witness :
    (({} : SANMove)).check_state = CheckState.None ∧
    (['+'] : List Char).countP (fun c => decide (c = '+' ∨ c = '#')) ≤ 1 ∧
    ((({ check_state := CheckState.Check } : SANMove), ([] : List Char)).1.check_state =
      (if (['+'] : List Char).head? = some '+' then CheckState.Check
       else if (['+'] : List Char).head? = some '#' then CheckState.Checkmate
       else CheckState.None)) :=
  ⟨rfl, by decide,
    (c9_check_suffixes.2.2.2 empty_san {} ['+'] rfl (by decide)).2
      ({ check_state := CheckState.Check }, []) (by rfl)⟩

end ChessGame
